import Mathlib

/-!
Verification of the two-level threshold pipeline operators from
`ilastik/applets/thresholdTwoLevels/opThresholdTwoLevels.py`.

Label volumes are embedded as flat lists of natural numbers (a label volume
is a dense integer array where 0 is background and positive integers index
connected components); the n-dimensional structure is irrelevant for the
pointwise operations verified here.  ROIs are pairs of integer coordinate
lists; sizes and thresholds are rationals where the Python code uses floats
(no rounding behaviour is at stake in any claim).
-/

namespace IlastikTTL

/-! ### OpSelectLabels -/

/-- Execution events of `OpSelectLabels.execute`, in the order the Python
statements run: fetch the small-labels request and clean it, reduce to the
boolean nonzero mask, `del smallLabels`, fetch the big labels, take the
elementwise product, and write the thresholded product into `result`. -/
inductive SelEvent where
  | fetchSmallLabels
  | cleanSmallRequest
  | reduceToNonZero
  | deleteSmallLabels
  | fetchBigLabels
  | multiplyMask
  | writeResult
  deriving DecidableEq, Repr

namespace OpSelectLabels

/-- Shallow embedding of `OpSelectLabels.execute` (lines 126-180).  The first
component is the trace of fetch/discard events in Python statement order; the
second is the value written into `result`:
`smallNonZero = (smallLabels != 0)`, `prod = smallNonZero * bigLabels`
(numpy bool-times-int semantics), `result[:] = (prod > 0).astype(uint8)`. -/
def execute (small big : List Nat) : List SelEvent × List Nat :=
  let smallLabels := small
  let t1 : List SelEvent := [SelEvent.fetchSmallLabels, SelEvent.cleanSmallRequest]
  let smallNonZero : List Bool := smallLabels.map (fun v => decide (v ≠ 0))
  let t2 := t1 ++ [SelEvent.reduceToNonZero, SelEvent.deleteSmallLabels]
  let bigLabels := big
  let t3 := t2 ++ [SelEvent.fetchBigLabels]
  let prod := List.zipWith (fun (b : Bool) (x : Nat) => (if b then 1 else 0) * x)
                smallNonZero bigLabels
  let t4 := t3 ++ [SelEvent.multiplyMask]
  let result := prod.map (fun p => if 0 < p then (1 : Nat) else 0)
  (t4 ++ [SelEvent.writeResult], result)

/-- Whether the small-labels buffer is live after a prefix of the event
trace: allocated by its fetch, freed by `del smallLabels`. -/
def smallBufLive (es : List SelEvent) : Bool :=
  es.foldl (fun st e =>
    match e with
    | SelEvent.fetchSmallLabels => true
    | SelEvent.deleteSmallLabels => false
    | _ => st) false

/-- Whether the big-labels buffer is live after a prefix of the event trace:
allocated by its fetch, held until the function returns. -/
def bigBufLive (es : List SelEvent) : Bool :=
  es.foldl (fun st e =>
    match e with
    | SelEvent.fetchBigLabels => true
    | _ => st) false

/-- The spec's claimed output for claim C1: the full footprint of the big
component labelled `a`, written as a binary mask. -/
def footprintMask (big : List Nat) (a : Nat) : List Nat :=
  big.map (fun v => if v = a then 1 else 0)

theorem execute_snd_length (small big : List Nat) (hlen : small.length = big.length) :
    (execute small big).2.length = big.length := by
  simp [execute, hlen]

/-- Pointwise value of the result array of `execute`: 1 where both label
values are nonzero, 0 elsewhere. -/
theorem execute_snd_getD (small big : List Nat)
    (hlen : small.length = big.length) (i : Nat) (hi : i < big.length) :
    (execute small big).2.getD i 0 =
      if small.getD i 0 ≠ 0 ∧ big.getD i 0 ≠ 0 then 1 else 0 := by
  have h1 : i < (execute small big).2.length := by
    rw [execute_snd_length small big hlen]; exact hi
  have h2 : i < small.length := by omega
  rw [List.getD_eq_getElem _ _ h1, List.getD_eq_getElem _ _ h2,
    List.getD_eq_getElem _ _ hi]
  simp only [execute, List.getElem_map, List.getElem_zipWith]
  by_cases hs : small[i] = 0 <;> by_cases hb : big[i] = 0 <;>
    simp [hs, hb, Nat.pos_of_ne_zero]

end OpSelectLabels

/-- Claim C3: for same-shape small/big label inputs, `OpSelectLabels.execute`
returns, at each voxel, `((small != 0) * big > 0)` cast to the uint8 mask
type: 1 exactly where both the small-label value and the big-label value are
nonzero, 0 everywhere else (labels are natural numbers, so nonzero and
positive coincide for the big value). -/
theorem opSelectLabels_execute_pointwise (small big : List Nat)
    (hlen : small.length = big.length) (i : Nat) (hi : i < big.length) :
    (OpSelectLabels.execute small big).2.getD i 0 =
      if small.getD i 0 ≠ 0 ∧ big.getD i 0 ≠ 0 then 1 else 0 :=
  OpSelectLabels.execute_snd_getD small big hlen i hi

/-- Witness for C3 at a concrete input. -/
theorem opSelectLabels_execute_pointwise_witness :
    (OpSelectLabels.execute [1, 0] [3, 4]).2.getD 0 0 =
      if ([1, 0] : List Nat).getD 0 0 ≠ 0 ∧ ([3, 4] : List Nat).getD 0 0 ≠ 0
      then 1 else 0 :=
  opSelectLabels_execute_pointwise [1, 0] [3, 4] (by decide) 0 (by decide)

/-- Claim C4: in `OpSelectLabels.execute` the two input fetches are strictly
sequenced: the small-labels fetch precedes the reduction to the nonzero mask,
which precedes `del smallLabels`, which precedes the big-labels fetch; and at
no prefix of the execution trace are the small-labels and big-labels buffers
live simultaneously. -/
theorem opSelectLabels_execute_fetch_order (small big : List Nat) :
    ((OpSelectLabels.execute small big).1.indexOf SelEvent.fetchSmallLabels <
        (OpSelectLabels.execute small big).1.indexOf SelEvent.reduceToNonZero ∧
      (OpSelectLabels.execute small big).1.indexOf SelEvent.reduceToNonZero <
        (OpSelectLabels.execute small big).1.indexOf SelEvent.deleteSmallLabels ∧
      (OpSelectLabels.execute small big).1.indexOf SelEvent.deleteSmallLabels <
        (OpSelectLabels.execute small big).1.indexOf SelEvent.fetchBigLabels) ∧
    ∀ k : Nat,
      (OpSelectLabels.smallBufLive ((OpSelectLabels.execute small big).1.take k) &&
        OpSelectLabels.bigBufLive ((OpSelectLabels.execute small big).1.take k)) = false := by
  have ht : (OpSelectLabels.execute small big).1 =
      [SelEvent.fetchSmallLabels, SelEvent.cleanSmallRequest, SelEvent.reduceToNonZero,
        SelEvent.deleteSmallLabels, SelEvent.fetchBigLabels, SelEvent.multiplyMask,
        SelEvent.writeResult] := rfl
  rw [ht]
  refine ⟨by decide, ?_⟩
  intro k
  rcases k with _ | _ | _ | _ | _ | _ | _ | n
  · decide
  · decide
  · decide
  · decide
  · decide
  · decide
  · decide
  · rw [List.take_of_length_le (by simp)]
    decide

/-- Claim C1 counterexample: `big = [1,1,2]` has two disjoint positive
components A (label 1, voxels 0 and 1) and B (label 2, voxel 2); `small =
[1,0,0]` has one positive region, voxel 0, overlapping only A.  The claim
says the output mask is 1 on all of A's footprint, i.e. `[1,1,0]`; the code
produces `[1,0,0]` (1 only on the overlap of A with the small region). -/
theorem opSelectLabels_footprint_counterexample :
    ((1 : Nat) ≠ 0 ∧ (2 : Nat) ≠ 0 ∧ (1 : Nat) ≠ 2 ∧
      (∃ i : Fin 3, ([1, 1, 2] : List Nat).get i = 1) ∧
      (∃ i : Fin 3, ([1, 1, 2] : List Nat).get i = 2) ∧
      (∀ i : Fin 3, ([1, 0, 0] : List Nat).get i ≠ 0 →
        ([1, 1, 2] : List Nat).get i ≠ 0 → ([1, 1, 2] : List Nat).get i = 1) ∧
      (∃ i : Fin 3, ([1, 0, 0] : List Nat).get i ≠ 0 ∧
        ([1, 1, 2] : List Nat).get i = 1)) ∧
    (OpSelectLabels.execute [1, 0, 0] [1, 1, 2]).2 ≠
      OpSelectLabels.footprintMask [1, 1, 2] 1 := by
  decide

/-- Claim C1 amended: under the claim's premises (big has two disjoint
positive components A = label `a` and B = label `b`, and the small volume's
positive region overlaps only A), `OpSelectLabels.execute` returns a mask
that is 1 exactly on the overlap of A's footprint with the small positive
region — voxels where `big = a` and `small ≠ 0` — and 0 elsewhere, including
the rest of A, all of B, and the background. -/
theorem opSelectLabels_overlap_mask (small big : List Nat) (a b : Nat)
    (ha : a ≠ 0) (hb : b ≠ 0) (hab : a ≠ b)
    (hlen : small.length = big.length)
    (hA : ∃ j, j < big.length ∧ big.getD j 0 = a)
    (hB : ∃ j, j < big.length ∧ big.getD j 0 = b)
    (honlyA : ∀ j, j < big.length →
      small.getD j 0 ≠ 0 → big.getD j 0 ≠ 0 → big.getD j 0 = a)
    (hover : ∃ j, j < big.length ∧ small.getD j 0 ≠ 0 ∧ big.getD j 0 = a)
    (i : Nat) (hi : i < big.length) :
    (OpSelectLabels.execute small big).2.getD i 0 =
      if big.getD i 0 = a ∧ small.getD i 0 ≠ 0 then 1 else 0 := by
  rw [OpSelectLabels.execute_snd_getD small big hlen i hi]
  by_cases hs : small.getD i 0 = 0
  · rw [hs]
    rw [if_neg (fun h => h.1 rfl), if_neg (fun h => h.2 rfl)]
  · by_cases hbz : big.getD i 0 = 0
    · rw [hbz]
      rw [if_neg (fun h => h.2 rfl), if_neg (fun h => ha h.1.symm)]
    · have hba : big.getD i 0 = a := honlyA i hi hs hbz
      rw [if_pos ⟨hs, hbz⟩, if_pos ⟨hba, hs⟩]

/-- Witness for the amended C1 at a concrete input. -/
theorem opSelectLabels_overlap_mask_witness :
    (OpSelectLabels.execute [1, 0, 0] [1, 1, 2]).2.getD 1 0 =
      if ([1, 1, 2] : List Nat).getD 1 0 = 1 ∧ ([1, 0, 0] : List Nat).getD 1 0 ≠ 0
      then 1 else 0 :=
  opSelectLabels_overlap_mask [1, 0, 0] [1, 1, 2] 1 2
    (by decide) (by decide) (by decide) (by decide)
    ⟨0, by decide, by decide⟩ ⟨2, by decide, by decide⟩
    (by decide) ⟨0, by decide, by decide, by decide⟩ 1 (by decide)

/-! ### OpAnisotropicGaussianSmoothing -/

/-- Numpy element types that appear in the pipeline. -/
inductive NumpyDType where
  | float32
  | float64
  | uint8
  | uint32
  | int64
  deriving DecidableEq, Repr

/-- Metadata of the smoother's input slot: per-axis keys and the full shape,
aligned index by index.  The data model guarantees a channel axis is always
present. -/
structure SmootherMeta where
  axiskeys : List Char
  shape : List Int
  deriving Repr

/-- Slot metadata restricted to the fields claims C6 and C8 need: the
element type and the optional display range. -/
structure SlotMeta where
  dtype : NumpyDType
  drange : Option (ℚ × ℚ)
  deriving DecidableEq, Repr

namespace OpAnisotropicGaussianSmoothing

/-- Modelled from the spec: the halo radius of a smoothing kernel is a fixed
window multiplier times sigma, rounded up (spec section 4.1).  The function
computing it, `lazyflow.roi.extendSlice`, is imported from lazyflow and is
not part of this repository's source tree. -/
def haloRadius (window sigma : ℚ) : Int := ⌈window * sigma⌉

/-- Modelled from the spec: one axis of `lazyflow.roi.extendSlice` — grow the
interval outward by the halo radius, then clip to the array bounds `[0,
bound)`.  Not part of this repository's source tree. -/
def extendAxis (window sigma : ℚ) (bound s e : Int) : Int × Int :=
  (max 0 (s - haloRadius window sigma), min bound (e + haloRadius window sigma))

/-- Modelled from the spec: `lazyflow.roi.extendSlice` applied to a spatial
ROI — per-axis halo extension of start/stop, clipped to the spatial shape
(spec section 4.1, `extend(roi, radius_per_axis, bounds)`).  Not part of this
repository's source tree. -/
def extendSlice : List Int → List Int → List Int → List ℚ → ℚ → List Int × List Int
  | s :: ss, e :: se, b :: bs, g :: gs, w =>
    let rest := extendSlice ss se bs gs w
    ((extendAxis w g b s e).1 :: rest.1, (extendAxis w g b s e).2 :: rest.2)
  | _, _, _, _, _ => ([], [])

theorem extendSlice_length (ss se shp : List Int) (sig : List ℚ) (w : ℚ)
    (h0 : ss.length = se.length) (h1 : ss.length = shp.length)
    (h2 : shp.length = sig.length) :
    (extendSlice ss se shp sig w).1.length = ss.length ∧
      (extendSlice ss se shp sig w).2.length = ss.length := by
  induction ss generalizing se shp sig with
  | nil =>
    cases se <;> cases shp <;> cases sig <;> simp_all [extendSlice]
  | cons s ss ih =>
    cases se with
    | nil => simp at h0
    | cons e se =>
      cases shp with
      | nil => simp at h1
      | cons b shp =>
        cases sig with
        | nil => simp at h2
        | cons g sig =>
          have := ih se shp sig (by simpa using h0) (by simpa using h1)
            (by simpa using h2)
          simp [extendSlice, this.1, this.2]

theorem extendSlice_getD (ss se shp : List Int) (sig : List ℚ) (w : ℚ) (ax : Nat)
    (hax : ax < ss.length) (h0 : ss.length = se.length)
    (h1 : ss.length = shp.length) (h2 : shp.length = sig.length) :
    (extendSlice ss se shp sig w).1.getD ax 0 =
      max 0 (ss.getD ax 0 - haloRadius w (sig.getD ax 0)) ∧
    (extendSlice ss se shp sig w).2.getD ax 0 =
      min (shp.getD ax 0) (se.getD ax 0 + haloRadius w (sig.getD ax 0)) := by
  induction ss generalizing se shp sig ax with
  | nil => simp at hax
  | cons s ss ih =>
    cases se with
    | nil => simp at h0
    | cons e se =>
      cases shp with
      | nil => simp at h1
      | cons b shp =>
        cases sig with
        | nil => simp at h2
        | cons g sig =>
          cases ax with
          | zero => simp [extendSlice, extendAxis]
          | succ n =>
            have := ih se shp sig n (by simpa using hax) (by simpa using h0)
              (by simpa using h1) (by simpa using h2)
            simpa [extendSlice] using this

theorem extendAxis_coverage (w g : ℚ) (bound rs re p : Int)
    (hp0 : 0 ≤ p) (hpb : p < bound)
    (hx : ∃ i : Int, (extendAxis w g bound p (p + 1)).1 ≤ i ∧
      i < (extendAxis w g bound p (p + 1)).2 ∧ rs ≤ i ∧ i < re) :
    max 0 (rs - haloRadius w g) ≤ p ∧ p < min bound (re + haloRadius w g) := by
  obtain ⟨i, h1, h2, h3, h4⟩ := hx
  simp only [extendAxis] at h1 h2
  omega

/-- Shallow embedding of
`OpAnisotropicGaussianSmoothing._getInputComputeRois` (lines 72-99): pop the
channel axis from the requested ROI, halo-extend the spatial ROI (window 2.0)
clipped to the input's spatial shape, derive the compute ROI as the offset of
the original ROI inside the extended one, and re-insert channel bounds 0 and
1 into the input ROI. -/
def getInputComputeRois (meta : SmootherMeta) (sigmas : Char → ℚ)
    (roiStart roiStop : List Int) : (List Int × List Int) × (List Int × List Int) :=
  let axiskeys := meta.axiskeys
  let spatialkeys := axiskeys.filter (fun k => k == 'x' || k == 'y' || k == 'z')
  let sigma := spatialkeys.map sigmas
  let c := axiskeys.indexOf 'c'
  let inputSpatialShape := meta.shape.eraseIdx c
  let ss := roiStart.eraseIdx c
  let se := roiStop.eraseIdx c
  let inputSpatialRoi := extendSlice ss se inputSpatialShape sigma 2
  let inputRoiOffset := List.zipWith (fun a b => a - b) ss inputSpatialRoi.1
  let computeRoi := (inputRoiOffset,
    List.zipWith (fun a b => a + b) inputRoiOffset
      (List.zipWith (fun a b => a - b) se ss))
  let inputRoi := (inputSpatialRoi.1.insertIdx c 0, inputSpatialRoi.2.insertIdx c 1)
  (inputRoi, computeRoi)

theorem zipWith_add_sub_cancel (off d : List Int) (h : off.length = d.length) :
    List.zipWith (fun a b => a - b) (List.zipWith (fun a b => a + b) off d) off = d := by
  induction off generalizing d with
  | nil =>
    cases d with
    | nil => rfl
    | cons x d => simp at h
  | cons o off ih =>
    cases d with
    | nil => simp at h
    | cons x d =>
      simp only [List.zipWith, List.cons.injEq]
      exact ⟨by omega, ih d (by simpa using h)⟩

/-- Shallow embedding of `OpAnisotropicGaussianSmoothing.execute` (lines
48-70) at the level of array shapes.  The first guard is the bounds assert of
line 49; `vigraOutShape` is the shape of the array produced by the black-box
`vigra.filters.gaussianSmoothing` call over `computeRoi` (written into
`result[...,0]`); the second guard is the shape assert of line 69 against
`computeRoi[1] - computeRoi[0]`; the returned value is the shape of `result`,
the framework-allocated buffer for the requested ROI, which line 70 returns. -/
def execute (meta : SmootherMeta) (sigmas : Char → ℚ) (roiStart roiStop : List Int)
    (vigraOutShape : List Int) : Except String (List Int) :=
  if (roiStop.zip meta.shape).all (fun q => decide (q.1 ≤ q.2)) then
    let rois := getInputComputeRois meta sigmas roiStart roiStop
    let expectedShape := List.zipWith (fun a b => a - b) rois.2.2 rois.2.1
    if vigraOutShape = expectedShape then
      Except.ok (List.zipWith (fun a b => a - b) roiStop roiStart)
    else Except.error "Smoothed data shape didnt match expected shape"
  else Except.error "Requested roi is too large for this input image"

/-- Input slots of the smoother, for `propagateDirty`. -/
inductive AGSSlot where
  | inputData
  | sigmasSlot
  deriving DecidableEq, Repr

/-- The halo-extended input ROI that `execute` (line 55) requests from the
Input slot in order to compute the given output ROI: the first component
returned by `_getInputComputeRois`. -/
def executeInputRoi (meta : SmootherMeta) (sigmas : Char → ℚ)
    (roiStart roiStop : List Int) : List Int × List Int :=
  (getInputComputeRois meta sigmas roiStart roiStop).1

/-- Shallow embedding of `OpAnisotropicGaussianSmoothing.propagateDirty`
(lines 101-109): a dirty region on the data input marks
`_getInputComputeRois(roi)[0]` dirty on the output; a dirty Sigmas slot marks
the whole output dirty. -/
def propagateDirty (meta : SmootherMeta) (sigmas : Char → ℚ) (slot : AGSSlot)
    (roiStart roiStop : List Int) : List Int × List Int :=
  match slot with
  | AGSSlot.inputData => (getInputComputeRois meta sigmas roiStart roiStop).1
  | AGSSlot.sigmasSlot => (List.replicate meta.shape.length 0, meta.shape)

/-- Shallow embedding of `OpAnisotropicGaussianSmoothing.setupOutputs`
(lines 39-46) on slot metadata: `assignFrom(Input.meta)` copies the input
metadata, then the dtype is overwritten with float32 (vigra gaussian only
supports float32). -/
def setupOutputs (inputMeta : SlotMeta) : SlotMeta :=
  { inputMeta with dtype := NumpyDType.float32 }

/-- Dtype the fetched input data has after the conversion step of `execute`
(lines 58-60): data whose dtype is not float32 is converted with
`astype(float32)`. -/
def executeDataDtype (fetched : NumpyDType) : NumpyDType :=
  if fetched ≠ NumpyDType.float32 then NumpyDType.float32 else fetched

end OpAnisotropicGaussianSmoothing

/-- Claim C2: the output region `OpAnisotropicGaussianSmoothing.propagateDirty`
marks dirty when the data input is dirtied over a ROI is exactly the
halo-extended input ROI that `execute` fetches for that ROI — both are
`_getInputComputeRois(roi)[0]` (first conjunct); the spatial part of that
region is the halo extension of the dirty ROI (second and third conjuncts);
and on every spatial axis, every in-bounds output coordinate `p` whose own
halo-extended input interval (the interval `execute` would read to recompute
`p`) meets the dirty interval lies inside the marked-dirty interval (fourth
conjunct), so the dirty region covers every output whose recomputation reads
the dirtied data. -/
theorem opAnisotropicGaussianSmoothing_dirty_matches_execute
    (meta : SmootherMeta) (sigmas : Char → ℚ) (rs re : List Int)
    (c : Nat) (hc : c = meta.axiskeys.indexOf 'c')
    (ss se shp : List Int) (sig : List ℚ)
    (hss : ss = rs.eraseIdx c) (hse : se = re.eraseIdx c)
    (hshp : shp = meta.shape.eraseIdx c)
    (hsig : sig = (meta.axiskeys.filter
      (fun k => k == 'x' || k == 'y' || k == 'z')).map sigmas)
    (hlen0 : ss.length = se.length) (hlen1 : ss.length = shp.length)
    (hlen2 : shp.length = sig.length) :
    OpAnisotropicGaussianSmoothing.propagateDirty meta sigmas
        OpAnisotropicGaussianSmoothing.AGSSlot.inputData rs re =
      OpAnisotropicGaussianSmoothing.executeInputRoi meta sigmas rs re ∧
    (OpAnisotropicGaussianSmoothing.executeInputRoi meta sigmas rs re).1.eraseIdx c =
      (OpAnisotropicGaussianSmoothing.extendSlice ss se shp sig 2).1 ∧
    (OpAnisotropicGaussianSmoothing.executeInputRoi meta sigmas rs re).2.eraseIdx c =
      (OpAnisotropicGaussianSmoothing.extendSlice ss se shp sig 2).2 ∧
    ∀ (ax : Nat) (p : Int), ax < ss.length → 0 ≤ p → p < shp.getD ax 0 →
      (∃ i : Int,
        (OpAnisotropicGaussianSmoothing.extendAxis 2 (sig.getD ax 0)
          (shp.getD ax 0) p (p + 1)).1 ≤ i ∧
        i < (OpAnisotropicGaussianSmoothing.extendAxis 2 (sig.getD ax 0)
          (shp.getD ax 0) p (p + 1)).2 ∧
        ss.getD ax 0 ≤ i ∧ i < se.getD ax 0) →
      (OpAnisotropicGaussianSmoothing.extendSlice ss se shp sig 2).1.getD ax 0 ≤ p ∧
        p < (OpAnisotropicGaussianSmoothing.extendSlice ss se shp sig 2).2.getD ax 0 := by
  subst hc hss hse hshp hsig
  refine ⟨rfl, ?_, ?_, ?_⟩
  · simp [OpAnisotropicGaussianSmoothing.executeInputRoi,
      OpAnisotropicGaussianSmoothing.getInputComputeRois, List.eraseIdx_insertIdx]
  · simp [OpAnisotropicGaussianSmoothing.executeInputRoi,
      OpAnisotropicGaussianSmoothing.getInputComputeRois, List.eraseIdx_insertIdx]
  · intro ax p hax hp0 hpb hx
    obtain ⟨g1, g2⟩ := OpAnisotropicGaussianSmoothing.extendSlice_getD
      _ _ _ _ 2 ax hax hlen0 hlen1 hlen2
    rw [g1, g2]
    exact OpAnisotropicGaussianSmoothing.extendAxis_coverage 2 _ _ _ _ p hp0 hpb hx

/-- Witness for C2: a concrete xyc volume of shape 8 by 8 by 1 with unit
sigmas, a dirty input ROI over x,y in [3,4), and the affected output
coordinate 5 on the x axis (halo radius 2). -/
theorem opAnisotropicGaussianSmoothing_dirty_matches_execute_witness :
    OpAnisotropicGaussianSmoothing.propagateDirty
        (SmootherMeta.mk ['x', 'y', 'c'] [8, 8, 1]) (fun _ => 1)
        OpAnisotropicGaussianSmoothing.AGSSlot.inputData
        [3, 3, 0] [4, 4, 1] =
      OpAnisotropicGaussianSmoothing.executeInputRoi
        (SmootherMeta.mk ['x', 'y', 'c'] [8, 8, 1]) (fun _ => 1)
        [3, 3, 0] [4, 4, 1] ∧
    (OpAnisotropicGaussianSmoothing.extendSlice [3, 3] [4, 4] [8, 8]
        [1, 1] 2).1.getD 0 0 ≤ 5 ∧
      (5 : Int) < (OpAnisotropicGaussianSmoothing.extendSlice [3, 3] [4, 4]
        [8, 8] [1, 1] 2).2.getD 0 0 := by
  have hhalo : OpAnisotropicGaussianSmoothing.haloRadius 2 1 = 2 := by
    norm_num [OpAnisotropicGaussianSmoothing.haloRadius]
  have h := opAnisotropicGaussianSmoothing_dirty_matches_execute
    (SmootherMeta.mk ['x', 'y', 'c'] [8, 8, 1]) (fun _ => 1)
    [3, 3, 0] [4, 4, 1] 2 (by decide)
    [3, 3] [4, 4] [8, 8] [1, 1]
    (by decide) (by decide) (by decide) (by simp) (by decide) (by decide) (by decide)
  refine ⟨h.1, ?_⟩
  refine h.2.2.2 0 5 (by decide) (by decide) (by decide)
    ⟨3, ?_, ?_, by decide, by decide⟩
  · simp [OpAnisotropicGaussianSmoothing.extendAxis, hhalo]
  · simp [OpAnisotropicGaussianSmoothing.extendAxis, hhalo]

/-- Claim C5: for a ROI within the declared output bounds,
`OpAnisotropicGaussianSmoothing.execute` succeeds exactly when the smoothing
kernel produces the requested spatial extent `se - ss` (the shape assert of
line 69 compares against `computeRoi[1] - computeRoi[0]`, which equals the
requested spatial extent), and then returns the result buffer of shape
`roi.stop - roi.start` exactly; any other produced shape trips the fatal
assertion rather than being recoverable. -/
theorem opAnisotropicGaussianSmoothing_execute_shape
    (meta : SmootherMeta) (sigmas : Char → ℚ) (rs re : List Int)
    (c : Nat) (hc : c = meta.axiskeys.indexOf 'c')
    (ss se shp : List Int) (sig : List ℚ)
    (hss : ss = rs.eraseIdx c) (hse : se = re.eraseIdx c)
    (hshp : shp = meta.shape.eraseIdx c)
    (hsig : sig = (meta.axiskeys.filter
      (fun k => k == 'x' || k == 'y' || k == 'z')).map sigmas)
    (hlen0 : ss.length = se.length) (hlen1 : ss.length = shp.length)
    (hlen2 : shp.length = sig.length)
    (hbounds : (re.zip meta.shape).all (fun q => decide (q.1 ≤ q.2)) = true) :
    OpAnisotropicGaussianSmoothing.execute meta sigmas rs re
        (List.zipWith (fun a b => a - b) se ss) =
      Except.ok (List.zipWith (fun a b => a - b) re rs) ∧
    ∀ s : List Int, s ≠ List.zipWith (fun a b => a - b) se ss →
      OpAnisotropicGaussianSmoothing.execute meta sigmas rs re s =
        Except.error "Smoothed data shape didnt match expected shape" := by
  have hexp : List.zipWith (fun a b => a - b)
      (OpAnisotropicGaussianSmoothing.getInputComputeRois meta sigmas rs re).2.2
      (OpAnisotropicGaussianSmoothing.getInputComputeRois meta sigmas rs re).2.1 =
      List.zipWith (fun a b => a - b) se ss := by
    subst hss hse hshp hsig hc
    simp only [OpAnisotropicGaussianSmoothing.getInputComputeRois]
    apply OpAnisotropicGaussianSmoothing.zipWith_add_sub_cancel
    have hlext := OpAnisotropicGaussianSmoothing.extendSlice_length
      _ _ _ _ 2 hlen0 hlen1 hlen2
    simp [List.length_zipWith, hlext.1]
    omega
  constructor
  · simp [OpAnisotropicGaussianSmoothing.execute, hbounds, hexp]
  · intro s hs
    simp [OpAnisotropicGaussianSmoothing.execute, hbounds, hexp, hs]

/-- Witness for C5: the same concrete xyc volume; the kernel produces the
spatial extent 1 by 1 and execute returns the full requested extent. -/
theorem opAnisotropicGaussianSmoothing_execute_shape_witness :
    OpAnisotropicGaussianSmoothing.execute
        (SmootherMeta.mk ['x', 'y', 'c'] [8, 8, 1]) (fun _ => 1)
        [3, 3, 0] [4, 4, 1] [1, 1] =
      Except.ok [1, 1, 1] := by
  have h := opAnisotropicGaussianSmoothing_execute_shape
    (SmootherMeta.mk ['x', 'y', 'c'] [8, 8, 1]) (fun _ => 1)
    [3, 3, 0] [4, 4, 1] 2 (by decide)
    [3, 3] [4, 4] [8, 8] [1, 1]
    (by decide) (by decide) (by decide) (by simp) (by decide) (by decide) (by decide)
    (by decide)
  simpa using h.1

/-- Claim C8: after configuration the smoother's output metadata element
type is float32 regardless of the input metadata, and the data fetched by
`execute` is float32 after the conversion step, whatever dtype it arrived
with. -/
theorem opAnisotropicGaussianSmoothing_forces_float32
    (m : SlotMeta) (fetched : NumpyDType) :
    (OpAnisotropicGaussianSmoothing.setupOutputs m).dtype = NumpyDType.float32 ∧
      OpAnisotropicGaussianSmoothing.executeDataDtype fetched = NumpyDType.float32 := by
  refine ⟨rfl, ?_⟩
  cases fetched <;> rfl

/-! ### OpThresholdTwoLevels -/

namespace OpThresholdTwoLevels

/-- Shallow embedding of the local function `thresholdToUint8` of
`OpThresholdTwoLevels.setupOutputs` (lines 304-314): when the smoothed
output's drange is declared, assert its lower bound is 0 and multiply the
threshold fraction by the upper bound; binarize the data with a strict
greater-than comparison and cast to uint8 (the uint8 in-place branch of the
source produces the same values as the astype branch). -/
def thresholdToUint8 (thresholdValue : ℚ) (drange : Option (ℚ × ℚ))
    (a : List ℚ) : Except String (List Nat) :=
  match drange with
  | none => Except.ok (a.map (fun v => if thresholdValue < v then 1 else 0))
  | some dr =>
    if dr.1 = 0 then
      Except.ok (a.map (fun v => if thresholdValue * dr.2 < v then 1 else 0))
    else Except.error "Dont know how to threshold data with this drange."

/-- Result of configuring `OpThresholdTwoLevels`: which channel slice the
smoother is connected to, the threshold fractions captured by the two
`partial(thresholdToUint8, ...)` functions, and the primary output dtype. -/
structure TTLConfig where
  smootherChannel : Nat
  lowThresholdValue : ℚ
  highThresholdValue : ℚ
  outputDtype : NumpyDType
  deriving DecidableEq, Repr

/-- Shallow embedding of `OpThresholdTwoLevels.setupOutputs` (lines
290-321): assert the input is at most 4D; read the channel axis index and
fall back to channel 0 when the configured channel exceeds the input's
channel count; connect the smoother to that channel slice; install the two
threshold functions; set the primary output dtype to uint32. -/
def setupOutputs (inputShape : List Nat) (axiskeys : List Char)
    (channelValue : Nat) (lowThreshold highThreshold : ℚ) :
    Except String TTLConfig :=
  if inputShape.length ≤ 4 then
    let channelAxis := axiskeys.indexOf 'c'
    let numChannels := inputShape.getD channelAxis 0
    let hackChannel := if channelValue > numChannels then 0 else channelValue
    Except.ok (TTLConfig.mk hackChannel lowThreshold highThreshold NumpyDType.uint32)
  else Except.error "This operator doesnt support 5D data."

/-- Shallow embedding of `OpThresholdTwoLevels.execute` (lines 323-324):
`assert False, "Shouldn't get here..."` unconditionally. -/
def execute (slot subindex : Nat) (roiStart roiStop : List Int) :
    Except String Unit :=
  Except.error "Shouldnt get here"

end OpThresholdTwoLevels

/-- Claim C6: the threshold stages binarize against the threshold fraction
scaled by the declared display range, not against the fraction as an absolute
value: with drange (0, hi), `thresholdToUint8` with fraction t outputs, at
each voxel, 1 iff the smoothed value strictly exceeds t times hi, else 0. -/
theorem opThresholdTwoLevels_threshold_scales_drange
    (t hi : ℚ) (drange : Option (ℚ × ℚ)) (hdr : drange = some (0, hi))
    (a : List ℚ) (res : List Nat)
    (hres : OpThresholdTwoLevels.thresholdToUint8 t drange a = Except.ok res)
    (i : Nat) (h : i < a.length) :
    res.length = a.length ∧
      res.getD i 0 = if t * hi < a[i] then 1 else 0 := by
  subst hdr
  simp [OpThresholdTwoLevels.thresholdToUint8] at hres
  subst hres
  refine ⟨by simp, ?_⟩
  rw [List.getD_eq_getElem _ _ (by simpa using h)]
  simp

/-- Witness for C6: threshold fraction one half with drange (0, 2) yields a
comparison value of 1, separating the sample values. -/
theorem opThresholdTwoLevels_threshold_scales_drange_witness :
    (([1, 0] : List Nat).length = ([3 / 2, 1 / 2] : List ℚ).length ∧
      ([1, 0] : List Nat).getD 0 0 =
        if (1 / 2 : ℚ) * 2 < ([3 / 2, 1 / 2] : List ℚ)[0] then 1 else 0) := by
  have h := opThresholdTwoLevels_threshold_scales_drange (1 / 2) 2
    (some (0, 2)) rfl [3 / 2, 1 / 2] [1, 0] (by norm_num
      [OpThresholdTwoLevels.thresholdToUint8]) 0 (by decide)
  exact h

/-- Claim C7: when the configured channel index exceeds the input's channel
count, configuration silently remaps it to channel 0 and the smoother is
connected to channel slice 0; otherwise the smoother is connected to the
configured channel slice. -/
theorem opThresholdTwoLevels_channel_fallback
    (inputShape : List Nat) (axiskeys : List Char) (channelValue : Nat)
    (lowThreshold highThreshold : ℚ) (cfg : OpThresholdTwoLevels.TTLConfig)
    (hok : OpThresholdTwoLevels.setupOutputs inputShape axiskeys channelValue
      lowThreshold highThreshold = Except.ok cfg) :
    (channelValue > inputShape.getD (axiskeys.indexOf 'c') 0 →
      cfg.smootherChannel = 0) ∧
    (channelValue ≤ inputShape.getD (axiskeys.indexOf 'c') 0 →
      cfg.smootherChannel = channelValue) := by
  by_cases hrank : inputShape.length ≤ 4
  · simp only [OpThresholdTwoLevels.setupOutputs, if_pos hrank,
      Except.ok.injEq] at hok
    subst hok
    constructor
    · intro hgt
      show (if inputShape.getD (axiskeys.indexOf 'c') 0 < channelValue
            then 0 else channelValue) = 0
      exact if_pos hgt
    · intro hle
      show (if inputShape.getD (axiskeys.indexOf 'c') 0 < channelValue
            then 0 else channelValue) = channelValue
      exact if_neg (Nat.not_lt.mpr hle)
  · simp [OpThresholdTwoLevels.setupOutputs, hrank] at hok

/-- Witness for C7: a 3-channel xyc input configured with channel 5 is
remapped to channel slice 0. -/
theorem opThresholdTwoLevels_channel_fallback_witness :
    (5 > ([4, 4, 3] : List Nat).getD ((['x', 'y', 'c'] : List Char).indexOf 'c') 0 →
      (OpThresholdTwoLevels.TTLConfig.mk 0 (1 / 5) (1 / 2)
        NumpyDType.uint32).smootherChannel = 0) ∧
    (5 ≤ ([4, 4, 3] : List Nat).getD ((['x', 'y', 'c'] : List Char).indexOf 'c') 0 →
      (OpThresholdTwoLevels.TTLConfig.mk 0 (1 / 5) (1 / 2)
        NumpyDType.uint32).smootherChannel = 5) := by
  exact opThresholdTwoLevels_channel_fallback [4, 4, 3] ['x', 'y', 'c'] 5
    (1 / 5) (1 / 2) (OpThresholdTwoLevels.TTLConfig.mk 0 (1 / 5) (1 / 2)
      NumpyDType.uint32) (by norm_num [OpThresholdTwoLevels.setupOutputs]; decide)

/-- Claim C9: `OpThresholdTwoLevels.execute` is never a computation path:
for every slot, subindex and ROI it fails unconditionally with the
assertion; all outputs of the composite operator are served by connections
to its internal sub-operators. -/
theorem opThresholdTwoLevels_execute_always_fails
    (slot subindex : Nat) (roiStart roiStop : List Int) :
    OpThresholdTwoLevels.execute slot subindex roiStart roiStop =
      Except.error "Shouldnt get here" := rfl

/-- Claim C10: configuring `OpThresholdTwoLevels` with an input of rank
greater than 4 fails with the configuration-time assertion, and for rank at
most 4 that failure branch is unreachable (configuration succeeds). -/
theorem opThresholdTwoLevels_rank_check
    (inputShape : List Nat) (axiskeys : List Char) (channelValue : Nat)
    (lowThreshold highThreshold : ℚ) :
    (4 < inputShape.length →
      OpThresholdTwoLevels.setupOutputs inputShape axiskeys channelValue
          lowThreshold highThreshold =
        Except.error "This operator doesnt support 5D data.") ∧
    (inputShape.length ≤ 4 →
      ∃ cfg, OpThresholdTwoLevels.setupOutputs inputShape axiskeys channelValue
          lowThreshold highThreshold = Except.ok cfg) := by
  constructor
  · intro hgt
    simp [OpThresholdTwoLevels.setupOutputs, Nat.not_le.mpr hgt]
  · intro hle
    refine ⟨OpThresholdTwoLevels.TTLConfig.mk
      (if channelValue > inputShape.getD (axiskeys.indexOf 'c') 0
        then 0 else channelValue)
      lowThreshold highThreshold NumpyDType.uint32, ?_⟩
    simp only [OpThresholdTwoLevels.setupOutputs, if_pos hle]

/-- Witness for C10: a rank-5 input is rejected and a rank-3 input is
accepted. -/
theorem opThresholdTwoLevels_rank_check_witness :
    OpThresholdTwoLevels.setupOutputs [2, 2, 2, 2, 2] ['t', 'x', 'y', 'z', 'c'] 0
        (1 / 5) (1 / 2) =
      Except.error "This operator doesnt support 5D data." ∧
    ∃ cfg, OpThresholdTwoLevels.setupOutputs [4, 4, 3] ['x', 'y', 'c'] 1
        (1 / 5) (1 / 2) = Except.ok cfg := by
  constructor
  · exact (opThresholdTwoLevels_rank_check [2, 2, 2, 2, 2]
      ['t', 'x', 'y', 'z', 'c'] 0 (1 / 5) (1 / 2)).1 (by decide)
  · exact (opThresholdTwoLevels_rank_check [4, 4, 3]
      ['x', 'y', 'c'] 1 (1 / 5) (1 / 2)).2 (by decide)

end IlastikTTL
